import Mathlib

/-!
# Shopping-cart state manager: shallow embedding

Embedding of the cart state manager of `alicecomoura/hook-shopping-cart`.
The repository holds two variants of the `CartProvider` hook:

* `src/src/hooks/useCart.tsx` — the fuller variant: `addProduct`,
  `removeProduct`, a complete `updateProductAmount`, and persistence via a
  `useEffect` that writes `localStorage` whenever the committed cart array
  reference changes (which happens exactly when `setCart` was called with a
  fresh array, i.e. on every successful mutation);
* `src/unnamed/part_000` — the duplicated variant: the same `addProduct` and
  `removeProduct` (with the `localStorage.setItem` call inlined next to
  `setCart`), and a stub `updateProductAmount` whose body is `// TODO`.

Modelling choices:

* The collaborators are parameters: a stock lookup `Int → Except Unit Int`
  (the `amount` field of `GET /stock/{id}`) and a catalog lookup
  `Int → Except Unit Product` (the body of `GET /products/{id}`).  The
  `.error` outcome stands for any thrown collaborator failure — network
  error or a malformed response whose field access throws; both are caught
  by the surrounding `try/catch`.
* JS numbers carried by the cart are modelled as `Int` (ids and amounts are
  integral throughout the spec) and the `price` field as `Rat`.
* `toast.error msg` is modelled as the operation returning `some msg`.
* The persisted store holds one fixed key `@RocketShoes:cart`; we model the
  value stored under that key as `Option String` (`none` = key absent).
* In-place mutation of the found entry (`productExists.amount = amount`)
  updates the first entry of the list whose id matches, which `updateFirst`
  mirrors.
-/

/-- Modelled from the spec: the `Product` type lives in `src/types.ts`,
which is not part of the provided sources.  The spec gives the shape
`CartEntry: { id: integer, title: string, price: number, image: string,
amount: integer }`. -/
structure Product where
  id : Int
  title : String
  price : Rat
  image : String
  amount : Int
deriving DecidableEq, Repr

/-- The single persisted key together with the canonical in-memory list:
`cart` is the canonical cart list, `storage` the value stored in
`localStorage` under the fixed key `@RocketShoes:cart`. -/
structure CartState where
  cart : List Product
  storage : Option String
deriving DecidableEq, Repr

/-- `toast.error('Quantidade solicitada fora de estoque')`. -/
def outOfStockMsg : String := "Quantidade solicitada fora de estoque"

/-- `toast.error('Erro na adição de produto')`. -/
def addErrorMsg : String := "Erro na adição de produto"

/-- `toast.error('Erro na remoção do produto')`. -/
def removeErrorMsg : String := "Erro na remoção do produto"

/-- `toast.error('Erro na alteração de quantidade do produto')`. -/
def updateErrorMsg : String := "Erro na alteração de quantidade do produto"

/-- `JSON.stringify` of one cart entry. -/
def stringifyProduct (p : Product) : String :=
  "\x7b\"id\":" ++ toString p.id ++ ",\"title\":\"" ++ p.title ++
    "\",\"price\":" ++ toString p.price ++ ",\"image\":\"" ++ p.image ++
    "\",\"amount\":" ++ toString p.amount ++ "\x7d"

/-- `JSON.stringify` of the cart list (a JSON array of entries). -/
def jsonStringify (cart : List Product) : String :=
  "[" ++ String.intercalate "," (cart.map stringifyProduct) ++ "]"

/-- `productExists.amount = amount`: the entry found by
`find(product => product.id === productId)` is mutated in place, i.e. the
first entry whose id matches gets the new amount; everything else is kept. -/
def updateFirst (cart : List Product) (productId : Int) (amount : Int) :
    List Product :=
  match cart with
  | [] => []
  | p :: rest =>
      if p.id == productId then { p with amount := amount } :: rest
      else p :: updateFirst rest productId amount

namespace UseCart

/-!
## The fuller variant, `src/src/hooks/useCart.tsx`

Each operation is split as in the source: the handler body computes a new
cart and decides whether `setCart` is called (`OpOutcome`), and the
persistence `useEffect` separately writes `localStorage` exactly when the
committed array reference changed, i.e. when `setCart` was called
(`persistEffect`).
-/

/-- Outcome of one handler body: the list passed to `setCart` (or the old
list when `setCart` was not reached), whether `setCart` was called, and the
toast raised, if any. -/
structure OpOutcome where
  cart : List Product
  setCartCalled : Bool
  toast : Option String
deriving DecidableEq, Repr

/-- Body of `addProduct` (lines 63–101 of `useCart.tsx`). -/
def addProductCore (stockApi : Int → Except Unit Int)
    (productApi : Int → Except Unit Product)
    (cart : List Product) (productId : Int) : OpOutcome :=
  match stockApi productId with
  | .error _ => ⟨cart, false, some addErrorMsg⟩
  | .ok stockAmount =>
      let productExists := cart.find? (fun product => product.id == productId)
      let currentAmount := match productExists with
        | some p => p.amount
        | none => 0
      let amount := currentAmount + 1
      if amount > stockAmount then
        ⟨cart, false, some outOfStockMsg⟩
      else
        match productExists with
        | some _ => ⟨updateFirst cart productId amount, true, none⟩
        | none =>
            match productApi productId with
            | .error _ => ⟨cart, false, some addErrorMsg⟩
            | .ok product => ⟨cart ++ [{ product with amount := 1 }], true, none⟩

/-- Body of `removeProduct` (lines 103–127): `findIndex` then `splice`. -/
def removeProductCore (cart : List Product) (productId : Int) : OpOutcome :=
  match cart.findIdx? (fun product => product.id == productId) with
  | some productIndex => ⟨cart.eraseIdx productIndex, true, none⟩
  | none => ⟨cart, false, some removeErrorMsg⟩

/-- Body of `updateProductAmount` (lines 129–164). -/
def updateProductAmountCore (stockApi : Int → Except Unit Int)
    (cart : List Product) (productId amount : Int) : OpOutcome :=
  if amount ≤ 0 then ⟨cart, false, none⟩
  else
    match stockApi productId with
    | .error _ => ⟨cart, false, some updateErrorMsg⟩
    | .ok stockAmount =>
        if amount > stockAmount then ⟨cart, false, some outOfStockMsg⟩
        else
          match cart.find? (fun product => product.id == productId) with
          | some _ => ⟨updateFirst cart productId amount, true, none⟩
          | none => ⟨cart, false, some updateErrorMsg⟩

/-- The persistence `useEffect` (lines 55–61): when the committed cart
array is a new reference — exactly when `setCart` was called — it writes
`JSON.stringify(cart)` under the fixed key; otherwise nothing is written. -/
def persistEffect (s : CartState) (o : OpOutcome) : CartState :=
  if o.setCartCalled then { cart := o.cart, storage := some (jsonStringify o.cart) }
  else s

/-- `addProduct` as observed by the rest of the application: handler body
followed by the persistence effect. -/
def addProduct (stockApi : Int → Except Unit Int)
    (productApi : Int → Except Unit Product)
    (s : CartState) (productId : Int) : CartState × Option String :=
  let o := addProductCore stockApi productApi s.cart productId
  (persistEffect s o, o.toast)

/-- `removeProduct` followed by the persistence effect. -/
def removeProduct (s : CartState) (productId : Int) : CartState × Option String :=
  let o := removeProductCore s.cart productId
  (persistEffect s o, o.toast)

/-- `updateProductAmount` followed by the persistence effect. -/
def updateProductAmount (stockApi : Int → Except Unit Int)
    (s : CartState) (productId amount : Int) : CartState × Option String :=
  let o := updateProductAmountCore stockApi s.cart productId amount
  (persistEffect s o, o.toast)

end UseCart

namespace Part000

/-!
## The duplicated variant, `src/unnamed/part_000`

Same handler logic; `localStorage.setItem` is called inline right after
`setCart`, so each operation is one function from state to state. Its
`updateProductAmount` is a stub (`// TODO` in both `try` and `catch`).
-/

/-- `addProduct` (lines 35–76 of `part_000`). -/
def addProduct (stockApi : Int → Except Unit Int)
    (productApi : Int → Except Unit Product)
    (s : CartState) (productId : Int) : CartState × Option String :=
  match stockApi productId with
  | .error _ => (s, some addErrorMsg)
  | .ok stockAmount =>
      let productExists := s.cart.find? (fun product => product.id == productId)
      let currentAmount := match productExists with
        | some p => p.amount
        | none => 0
      let amount := currentAmount + 1
      if amount > stockAmount then
        (s, some outOfStockMsg)
      else
        match productExists with
        | some _ =>
            let updatedCart := updateFirst s.cart productId amount
            ({ cart := updatedCart, storage := some (jsonStringify updatedCart) }, none)
        | none =>
            match productApi productId with
            | .error _ => (s, some addErrorMsg)
            | .ok product =>
                let updatedCart := s.cart ++ [{ product with amount := 1 }]
                ({ cart := updatedCart, storage := some (jsonStringify updatedCart) }, none)

/-- `removeProduct` (lines 78–103 of `part_000`). -/
def removeProduct (s : CartState) (productId : Int) : CartState × Option String :=
  match s.cart.findIdx? (fun product => product.id == productId) with
  | some productIndex =>
      let updatedCart := s.cart.eraseIdx productIndex
      ({ cart := updatedCart, storage := some (jsonStringify updatedCart) }, none)
  | none => (s, some removeErrorMsg)

/-- `updateProductAmount` (lines 105–114 of `part_000`): the body is
`// TODO`, so the operation does nothing and raises no toast. -/
def updateProductAmount (s : CartState) (productId amount : Int) :
    CartState × Option String :=
  (s, none)

end Part000

/-!
## Helper lemmas

A cart that contains a matching entry splits as `l1 ++ e :: l2` with no
match in `l1`; the lemmas below compute `find?`, `findIdx?`, `eraseIdx` and
`updateFirst` on such a split.
-/

theorem find?_of_split (l1 l2 : List Product) (e : Product) (pid : Int)
    (h1 : ∀ p ∈ l1, (p.id == pid) = false) (he : (e.id == pid) = true) :
    (l1 ++ e :: l2).find? (fun product => product.id == pid) = some e := by
  induction l1 with
  | nil => simp [List.find?_cons_of_pos, he]
  | cons a l ih =>
      have ha := h1 a (by simp)
      rw [List.cons_append, List.find?_cons_of_neg _ (by simp [ha])]
      exact ih fun p hp => h1 p (by simp [hp])

theorem updateFirst_of_split (l1 l2 : List Product) (e : Product) (pid a : Int)
    (h1 : ∀ p ∈ l1, (p.id == pid) = false) (he : (e.id == pid) = true) :
    updateFirst (l1 ++ e :: l2) pid a = l1 ++ { e with amount := a } :: l2 := by
  induction l1 with
  | nil => simp [updateFirst, he]
  | cons b l ih =>
      have hb := h1 b (by simp)
      simp [updateFirst, hb, ih fun p hp => h1 p (by simp [hp])]

theorem findIdx?_of_split (l1 l2 : List Product) (e : Product) (pid : Int)
    (h1 : ∀ p ∈ l1, (p.id == pid) = false) (he : (e.id == pid) = true) :
    (l1 ++ e :: l2).findIdx? (fun product => product.id == pid) = some l1.length := by
  induction l1 with
  | nil => simp [List.findIdx?_cons, he]
  | cons b l ih =>
      have hb := h1 b (by simp)
      simp [List.findIdx?_cons, hb, ih fun p hp => h1 p (by simp [hp])]

theorem eraseIdx_of_split (l1 l2 : List Product) (e : Product) :
    (l1 ++ e :: l2).eraseIdx l1.length = l1 ++ l2 := by
  induction l1 with
  | nil => rfl
  | cons b l ih => simpa [List.eraseIdx] using ih

/-- `updateFirst` only rewrites an `amount`; the sequence of ids is kept. -/
theorem updateFirst_map_id (cart : List Product) (pid a : Int) :
    (updateFirst cart pid a).map Product.id = cart.map Product.id := by
  induction cart with
  | nil => rfl
  | cons b l ih =>
      simp only [updateFirst]
      split <;> simp [ih]

/-!
## Branch dichotomies

Every handler body either reaches `setCart` with no toast, or leaves the
cart alone, does not call `setCart`, and raises a toast (the sole exception
being the silent no-op branch of `updateProductAmount` for `amount ≤ 0`).
-/

namespace UseCart

/-- Either the handler committed (`setCart` called, no toast) or it left
the cart untouched, did not commit, and raised a toast. -/
def committedOrFramed (cart : List Product) (o : OpOutcome) : Prop :=
  (o.setCartCalled = true ∧ o.toast = none) ∨
  (o.setCartCalled = false ∧ o.cart = cart ∧ o.toast.isSome = true)

theorem addProductCore_dichotomy (sa : Int → Except Unit Int)
    (pa : Int → Except Unit Product) (cart : List Product) (pid : Int) :
    committedOrFramed cart (addProductCore sa pa cart pid) := by
  unfold committedOrFramed addProductCore
  cases sa pid with
  | error e => exact .inr ⟨rfl, rfl, rfl⟩
  | ok stockAmount =>
      dsimp only
      split
      · exact .inr ⟨rfl, rfl, rfl⟩
      · split
        · exact .inl ⟨rfl, rfl⟩
        · cases pa pid with
          | error e => exact .inr ⟨rfl, rfl, rfl⟩
          | ok product => exact .inl ⟨rfl, rfl⟩

theorem removeProductCore_dichotomy (cart : List Product) (pid : Int) :
    committedOrFramed cart (removeProductCore cart pid) := by
  unfold committedOrFramed removeProductCore
  cases cart.findIdx? (fun product => product.id == pid) with
  | none => exact .inr ⟨rfl, rfl, rfl⟩
  | some i => exact .inl ⟨rfl, rfl⟩

theorem updateProductAmountCore_dichotomy (sa : Int → Except Unit Int)
    (cart : List Product) (pid amount : Int) :
    committedOrFramed cart (updateProductAmountCore sa cart pid amount) ∨
      (amount ≤ 0 ∧ updateProductAmountCore sa cart pid amount = ⟨cart, false, none⟩) := by
  by_cases h0 : amount ≤ 0
  · exact .inr ⟨h0, by simp [updateProductAmountCore, h0]⟩
  · left
    unfold committedOrFramed updateProductAmountCore
    rw [if_neg h0]
    cases sa pid with
    | error e => exact .inr ⟨rfl, rfl, rfl⟩
    | ok stockAmount =>
        dsimp only
        split
        · exact .inr ⟨rfl, rfl, rfl⟩
        · split
          · exact .inl ⟨rfl, rfl⟩
          · exact .inr ⟨rfl, rfl, rfl⟩

/-- A handler that raised a toast did not commit, so the persistence effect
leaves the whole state (canonical list and stored snapshot) unchanged. -/
theorem frame_of_committedOrFramed (st : CartState) (o : OpOutcome)
    (h : committedOrFramed st.cart o) (ht : o.toast.isSome = true) :
    persistEffect st o = st := by
  rcases h with ⟨_, hn⟩ | ⟨hc, _, _⟩
  · rw [hn] at ht; cases ht
  · simp [persistEffect, hc]

/-- What the committed/framed dichotomy means after the persistence effect:
on no toast the stored snapshot is the serialization of the committed list,
on a toast the state is exactly the pre-call state. -/
theorem persist_spec_of_dichotomy (st : CartState) (o : OpOutcome)
    (h : committedOrFramed st.cart o) :
    (o.toast = none →
      (persistEffect st o).storage = some (jsonStringify (persistEffect st o).cart)) ∧
    (o.toast ≠ none → persistEffect st o = st) := by
  rcases h with ⟨hc, hn⟩ | ⟨hc, _, ht⟩
  · exact ⟨fun _ => by simp [persistEffect, hc], fun hne => absurd hn hne⟩
  · refine ⟨fun hn => ?_, fun _ => by simp [persistEffect, hc]⟩
    rw [hn] at ht; cases ht

end UseCart

/-!
## Variant equivalence helpers

The duplicated variant writes `localStorage` inline where the fuller
variant relies on the persistence `useEffect`; the observable result is the
same function of the pre-call state.
-/

theorem addProduct_variant_eq (sa : Int → Except Unit Int)
    (pa : Int → Except Unit Product) (st : CartState) (pid : Int) :
    UseCart.addProduct sa pa st pid = Part000.addProduct sa pa st pid := by
  cases hsa : sa pid with
  | error e =>
      simp [UseCart.addProduct, UseCart.addProductCore, UseCart.persistEffect,
        Part000.addProduct, hsa]
  | ok stockAmount =>
      cases hfind : st.cart.find? (fun product => product.id == pid) with
      | some p =>
          by_cases hlt : stockAmount < p.amount + 1 <;>
            simp [UseCart.addProduct, UseCart.addProductCore, UseCart.persistEffect,
              Part000.addProduct, hsa, hfind, hlt]
      | none =>
          cases hpa : pa pid with
          | error e =>
              by_cases hlt : stockAmount < 1 <;>
                simp [UseCart.addProduct, UseCart.addProductCore, UseCart.persistEffect,
                  Part000.addProduct, hsa, hfind, hpa, hlt]
          | ok product =>
              by_cases hlt : stockAmount < 1 <;>
                simp [UseCart.addProduct, UseCart.addProductCore, UseCart.persistEffect,
                  Part000.addProduct, hsa, hfind, hpa, hlt]

theorem removeProduct_variant_eq (st : CartState) (pid : Int) :
    UseCart.removeProduct st pid = Part000.removeProduct st pid := by
  cases hfind : st.cart.findIdx? (fun product => product.id == pid) <;>
    simp [UseCart.removeProduct, UseCart.removeProductCore, UseCart.persistEffect,
      Part000.removeProduct, hfind]

section Sanity

example :
    (UseCart.addProduct (fun _ => .ok 5) (fun _ => .error ())
      ⟨[⟨1, "t", 2, "i", 2⟩], none⟩ 1).1.cart = [⟨1, "t", 2, "i", 3⟩] := by
  decide

example :
    (UseCart.addProduct (fun _ => .ok 5) (fun _ => .error ())
      ⟨[⟨1, "t", 2, "i", 5⟩], none⟩ 1).2 = some outOfStockMsg := by
  decide

example :
    (UseCart.removeProduct ⟨[⟨1, "t", 2, "i", 1⟩, ⟨2, "u", 3, "j", 1⟩], none⟩ 2).1.cart
      = [⟨1, "t", 2, "i", 1⟩] := by
  decide

end Sanity

/-- Shared computation: removing a present product id. When the cart splits
as `l1 ++ e :: l2` with no match in `l1` and `e` matching, `findIndex`
returns `l1.length`, `splice` drops `e`, and the result is committed and
persisted. -/
theorem removeProduct_split (st : CartState) (pid : Int) (l1 l2 : List Product)
    (e : Product) (hc : st.cart = l1 ++ e :: l2)
    (h1 : ∀ p ∈ l1, (p.id == pid) = false) (he : e.id = pid) :
    UseCart.removeProduct st pid =
      ({ cart := l1 ++ l2, storage := some (jsonStringify (l1 ++ l2)) }, none) := by
  have he' : (e.id == pid) = true := by simp [he]
  have hidx : st.cart.findIdx? (fun product => product.id == pid) = some l1.length := by
    rw [hc]; exact findIdx?_of_split l1 l2 e pid h1 he'
  have herase : st.cart.eraseIdx l1.length = l1 ++ l2 := by
    rw [hc]; exact eraseIdx_of_split l1 l2 e
  simp [UseCart.removeProduct, UseCart.removeProductCore, UseCart.persistEffect, hidx, herase]

/-- C2: for a cart whose first entry matching the requested id is `e` and a
stock lookup answering `stockAmount`: when `e.amount + 1 ≤ stockAmount`,
`addProduct` commits the cart with exactly that entry's amount incremented
(everything else unchanged in place) and no toast; when
`e.amount + 1 > stockAmount`, the state is unchanged and the out-of-stock
toast is raised. -/
theorem addProduct_existing_increments_or_rejects (sa : Int → Except Unit Int)
    (pa : Int → Except Unit Product) (st : CartState)
    (pid stockAmount : Int) (l1 l2 : List Product) (e : Product)
    (hsa : sa pid = .ok stockAmount)
    (hc : st.cart = l1 ++ e :: l2)
    (h1 : ∀ p ∈ l1, (p.id == pid) = false)
    (he : e.id = pid) :
    (e.amount + 1 ≤ stockAmount →
      UseCart.addProduct sa pa st pid =
        ({ cart := l1 ++ { e with amount := e.amount + 1 } :: l2,
           storage := some (jsonStringify (l1 ++ { e with amount := e.amount + 1 } :: l2)) },
         none))
    ∧ (stockAmount < e.amount + 1 →
      UseCart.addProduct sa pa st pid = (st, some outOfStockMsg)) := by
  have he' : (e.id == pid) = true := by simp [he]
  have hfind : st.cart.find? (fun product => product.id == pid) = some e := by
    rw [hc]; exact find?_of_split l1 l2 e pid h1 he'
  constructor
  · intro hle
    have hnlt : ¬ stockAmount < e.amount + 1 := not_lt.mpr hle
    have hupd : updateFirst st.cart pid (e.amount + 1) =
        l1 ++ { e with amount := e.amount + 1 } :: l2 := by
      rw [hc]; exact updateFirst_of_split l1 l2 e pid _ h1 he'
    simp [UseCart.addProduct, UseCart.addProductCore, UseCart.persistEffect, hsa, hfind,
      hnlt, hupd]
  · intro hlt
    simp [UseCart.addProduct, UseCart.addProductCore, UseCart.persistEffect, hsa, hfind, hlt]

theorem addProduct_existing_increments_or_rejects_witness :
    UseCart.addProduct (fun _ => .ok 5) (fun _ => .error ())
        ⟨[⟨1, "t", 2, "i", 2⟩], none⟩ 1 =
      ({ cart := [⟨1, "t", 2, "i", 3⟩],
         storage := some (jsonStringify [⟨1, "t", 2, "i", 3⟩]) }, none) :=
  (addProduct_existing_increments_or_rejects (fun _ => .ok 5) (fun _ => .error ())
    ⟨[⟨1, "t", 2, "i", 2⟩], none⟩ 1 5 [] [] ⟨1, "t", 2, "i", 2⟩ rfl rfl (by simp)
    rfl).1 (by decide)

/-- C3: adding an id absent from the cart, with stock at least 1 and a
successful catalog lookup, appends exactly one new entry — the catalog
product with amount 1 — at the end, leaving all previous entries unchanged
in order and content, and commits and persists the result with no toast. -/
theorem addProduct_new_appends_amount_one (sa : Int → Except Unit Int)
    (pa : Int → Except Unit Product) (st : CartState)
    (pid stockAmount : Int) (product : Product)
    (hsa : sa pid = .ok stockAmount)
    (habsent : ∀ p ∈ st.cart, (p.id == pid) = false)
    (hstock : 1 ≤ stockAmount)
    (hpa : pa pid = .ok product) :
    UseCart.addProduct sa pa st pid =
      ({ cart := st.cart ++ [{ product with amount := 1 }],
         storage := some (jsonStringify (st.cart ++ [{ product with amount := 1 }])) },
       none) := by
  have hfind : st.cart.find? (fun p => p.id == pid) = none :=
    List.find?_eq_none.mpr fun p hp => by simp [habsent p hp]
  have hnlt : ¬ stockAmount < 1 := not_lt.mpr hstock
  simp [UseCart.addProduct, UseCart.addProductCore, UseCart.persistEffect, hsa, hfind,
    hpa, hnlt]

theorem addProduct_new_appends_amount_one_witness :
    UseCart.addProduct (fun _ => .ok 3) (fun _ => .ok ⟨7, "new", 10, "img", 99⟩)
        ⟨[⟨1, "t", 2, "i", 2⟩], none⟩ 7 =
      ({ cart := [⟨1, "t", 2, "i", 2⟩, ⟨7, "new", 10, "img", 1⟩],
         storage := some (jsonStringify [⟨1, "t", 2, "i", 2⟩, ⟨7, "new", 10, "img", 1⟩]) },
       none) :=
  addProduct_new_appends_amount_one (fun _ => .ok 3) (fun _ => .ok ⟨7, "new", 10, "img", 99⟩)
    ⟨[⟨1, "t", 2, "i", 2⟩], none⟩ 7 3 ⟨7, "new", 10, "img", 99⟩ rfl (by decide)
    (by decide) rfl

/-- C4: removing a present product id yields the cart with exactly the
first matching entry gone: every other entry is unchanged in relative order
and in amount, the result is committed and persisted, and no toast is
raised. -/
theorem removeProduct_present_removes_exactly_entry (st : CartState) (pid : Int)
    (l1 l2 : List Product) (e : Product)
    (hc : st.cart = l1 ++ e :: l2)
    (h1 : ∀ p ∈ l1, (p.id == pid) = false)
    (he : e.id = pid) :
    UseCart.removeProduct st pid =
      ({ cart := l1 ++ l2, storage := some (jsonStringify (l1 ++ l2)) }, none) :=
  removeProduct_split st pid l1 l2 e hc h1 he

theorem removeProduct_present_removes_exactly_entry_witness :
    UseCart.removeProduct ⟨[⟨1, "t", 2, "i", 1⟩, ⟨2, "u", 3, "j", 4⟩], none⟩ 2 =
      ({ cart := [⟨1, "t", 2, "i", 1⟩],
         storage := some (jsonStringify [⟨1, "t", 2, "i", 1⟩]) }, none) :=
  removeProduct_present_removes_exactly_entry
    ⟨[⟨1, "t", 2, "i", 1⟩, ⟨2, "u", 3, "j", 4⟩], none⟩ 2
    [⟨1, "t", 2, "i", 1⟩] [] ⟨2, "u", 3, "j", 4⟩ rfl (by decide) rfl

/-- C6: for a requested amount ≤ 0, `updateProductAmount` returns before
touching anything: the state (cart and stored snapshot) is unchanged and no
toast is raised; since this holds for every stock lookup function, no
collaborator response can influence the result. -/
theorem updateProductAmount_nonpositive_noop (sa : Int → Except Unit Int)
    (st : CartState) (pid amount : Int) (h : amount ≤ 0) :
    UseCart.updateProductAmount sa st pid amount = (st, none) := by
  simp [UseCart.updateProductAmount, UseCart.updateProductAmountCore,
    UseCart.persistEffect, h]

theorem updateProductAmount_nonpositive_noop_witness :
    UseCart.updateProductAmount (fun _ => .error ()) ⟨[⟨1, "t", 2, "i", 1⟩], none⟩ 1 0 =
      (⟨[⟨1, "t", 2, "i", 1⟩], none⟩, none) :=
  updateProductAmount_nonpositive_noop (fun _ => .error ())
    ⟨[⟨1, "t", 2, "i", 1⟩], none⟩ 1 0 (by decide)

/-- C10: on a cart holding several entries with the requested id (reachable
only through a hand-crafted persisted snapshot), `removeProduct` removes
the earliest matching entry only; any later duplicate stays in the list.
Holds for both variants. -/
theorem removeProduct_removes_first_match_only (st : CartState) (pid : Int)
    (l1 l2 : List Product) (e d : Product)
    (hc : st.cart = l1 ++ e :: l2)
    (h1 : ∀ p ∈ l1, (p.id == pid) = false)
    (he : e.id = pid) (hd : d ∈ l2) (hdid : d.id = pid) :
    ((UseCart.removeProduct st pid).1.cart = l1 ++ l2
      ∧ d ∈ (UseCart.removeProduct st pid).1.cart)
    ∧ ((Part000.removeProduct st pid).1.cart = l1 ++ l2
      ∧ d ∈ (Part000.removeProduct st pid).1.cart) := by
  have hsplit := removeProduct_split st pid l1 l2 e hc h1 he
  have hmem : d ∈ l1 ++ l2 := List.mem_append.mpr (.inr hd)
  refine ⟨⟨?_, ?_⟩, ?_, ?_⟩
  · rw [hsplit]
  · rw [hsplit]; exact hmem
  · rw [← removeProduct_variant_eq, hsplit]
  · rw [← removeProduct_variant_eq, hsplit]; exact hmem

theorem removeProduct_removes_first_match_only_witness :
    (UseCart.removeProduct
        ⟨[⟨1, "a", 2, "i", 1⟩, ⟨1, "b", 3, "j", 4⟩], none⟩ 1).1.cart =
      [⟨1, "b", 3, "j", 4⟩] :=
  ((removeProduct_removes_first_match_only
    ⟨[⟨1, "a", 2, "i", 1⟩, ⟨1, "b", 3, "j", 4⟩], none⟩ 1
    [] [⟨1, "b", 3, "j", 4⟩] ⟨1, "a", 2, "i", 1⟩ ⟨1, "b", 3, "j", 4⟩
    rfl (by simp) rfl (by decide) rfl).1).1

/-- C5: for a requested amount ≥ 1 and a stock lookup answering
`stockAmount`: if the amount exceeds stock, the out-of-stock toast is
raised and the state is unchanged; if it does not and an entry with the id
exists, the first such entry's amount is set to exactly the requested value
(other entries unchanged), committed and persisted with no toast; if it
does not and no entry exists, the update-failed toast is raised and the
state is unchanged. -/
theorem updateProductAmount_cases (sa : Int → Except Unit Int) (st : CartState)
    (pid amount stockAmount : Int) (h1 : 1 ≤ amount)
    (hsa : sa pid = .ok stockAmount) :
    (stockAmount < amount →
      UseCart.updateProductAmount sa st pid amount = (st, some outOfStockMsg))
    ∧ (∀ l1 (e : Product) l2, amount ≤ stockAmount → st.cart = l1 ++ e :: l2 →
        (∀ p ∈ l1, (p.id == pid) = false) → e.id = pid →
        UseCart.updateProductAmount sa st pid amount =
          ({ cart := l1 ++ { e with amount := amount } :: l2,
             storage := some (jsonStringify (l1 ++ { e with amount := amount } :: l2)) },
           none))
    ∧ ((∀ p ∈ st.cart, (p.id == pid) = false) → amount ≤ stockAmount →
        UseCart.updateProductAmount sa st pid amount = (st, some updateErrorMsg)) := by
  have h0 : ¬ amount ≤ 0 := by omega
  refine ⟨?_, ?_, ?_⟩
  · intro hlt
    simp [UseCart.updateProductAmount, UseCart.updateProductAmountCore,
      UseCart.persistEffect, h0, hsa, hlt]
  · intro l1 e l2 hle hc hl1 he
    have he' : (e.id == pid) = true := by simp [he]
    have hfind : st.cart.find? (fun product => product.id == pid) = some e := by
      rw [hc]; exact find?_of_split l1 l2 e pid hl1 he'
    have hupd : updateFirst st.cart pid amount = l1 ++ { e with amount := amount } :: l2 := by
      rw [hc]; exact updateFirst_of_split l1 l2 e pid _ hl1 he'
    have hnlt : ¬ stockAmount < amount := not_lt.mpr hle
    simp [UseCart.updateProductAmount, UseCart.updateProductAmountCore,
      UseCart.persistEffect, h0, hsa, hnlt, hfind, hupd]
  · intro habsent hle
    have hfind : st.cart.find? (fun p => p.id == pid) = none :=
      List.find?_eq_none.mpr fun p hp => by simp [habsent p hp]
    have hnlt : ¬ stockAmount < amount := not_lt.mpr hle
    simp [UseCart.updateProductAmount, UseCart.updateProductAmountCore,
      UseCart.persistEffect, h0, hsa, hnlt, hfind]

theorem updateProductAmount_cases_witness :
    UseCart.updateProductAmount (fun _ => .ok 5)
        ⟨[⟨1, "t", 2, "i", 1⟩], none⟩ 1 4 =
      ({ cart := [⟨1, "t", 2, "i", 4⟩],
         storage := some (jsonStringify [⟨1, "t", 2, "i", 4⟩]) }, none) :=
  (updateProductAmount_cases (fun _ => .ok 5) ⟨[⟨1, "t", 2, "i", 1⟩], none⟩ 1 4 5
      (by decide) rfl).2.1 [] ⟨1, "t", 2, "i", 1⟩ [] (by decide) rfl (by simp) rfl

/-- C1: each of the six handlers (three operations in each variant) is a
total function of the pre-call state and the collaborator outcomes — the
embedding has no exceptional exit, mirroring the source's all-enclosing
`try/catch` — and whenever a handler raises a toast (stock exceeded,
target entry absent, or a collaborator failure, malformed responses
included, surfacing as the `.error` outcome) the canonical cart list after
the call is exactly the list before the call. -/
theorem cart_ops_never_corrupt_on_failure (sa : Int → Except Unit Int)
    (pa : Int → Except Unit Product) (st : CartState) (pid amount : Int) :
    ((UseCart.addProduct sa pa st pid).2.isSome = true →
      (UseCart.addProduct sa pa st pid).1.cart = st.cart)
    ∧ ((UseCart.removeProduct st pid).2.isSome = true →
      (UseCart.removeProduct st pid).1.cart = st.cart)
    ∧ ((UseCart.updateProductAmount sa st pid amount).2.isSome = true →
      (UseCart.updateProductAmount sa st pid amount).1.cart = st.cart)
    ∧ ((Part000.addProduct sa pa st pid).2.isSome = true →
      (Part000.addProduct sa pa st pid).1.cart = st.cart)
    ∧ ((Part000.removeProduct st pid).2.isSome = true →
      (Part000.removeProduct st pid).1.cart = st.cart)
    ∧ ((Part000.updateProductAmount st pid amount).2.isSome = true →
      (Part000.updateProductAmount st pid amount).1.cart = st.cart) := by
  have hadd : (UseCart.addProduct sa pa st pid).2.isSome = true →
      (UseCart.addProduct sa pa st pid).1.cart = st.cart := fun h =>
    congrArg CartState.cart
      (UseCart.frame_of_committedOrFramed st _
        (UseCart.addProductCore_dichotomy sa pa st.cart pid) h)
  have hrem : (UseCart.removeProduct st pid).2.isSome = true →
      (UseCart.removeProduct st pid).1.cart = st.cart := fun h =>
    congrArg CartState.cart
      (UseCart.frame_of_committedOrFramed st _
        (UseCart.removeProductCore_dichotomy st.cart pid) h)
  have hupd : (UseCart.updateProductAmount sa st pid amount).2.isSome = true →
      (UseCart.updateProductAmount sa st pid amount).1.cart = st.cart := by
    intro h
    rcases UseCart.updateProductAmountCore_dichotomy sa st.cart pid amount with
      hd | ⟨h0, heq⟩
    · exact congrArg CartState.cart (UseCart.frame_of_committedOrFramed st _ hd h)
    · simp [UseCart.updateProductAmount, heq] at h
  refine ⟨hadd, hrem, hupd, ?_, ?_, ?_⟩
  · rw [← addProduct_variant_eq]; exact hadd
  · rw [← removeProduct_variant_eq]; exact hrem
  · intro h
    simp [Part000.updateProductAmount] at h

theorem cart_ops_never_corrupt_on_failure_witness :
    (UseCart.addProduct (fun _ => .error ()) (fun _ => .error ())
        ⟨[⟨1, "t", 2, "i", 1⟩], none⟩ 1).1.cart = [⟨1, "t", 2, "i", 1⟩] :=
  (cart_ops_never_corrupt_on_failure (fun _ => .error ()) (fun _ => .error ())
    ⟨[⟨1, "t", 2, "i", 1⟩], none⟩ 1 1).1 (by decide)

/-!
## Uniqueness invariant
-/

/-- The spec's uniqueness invariant: at most one cart entry per product id,
i.e. the sequence of ids has no duplicate. -/
def CartUnique (cart : List Product) : Prop := (cart.map Product.id).Nodup

instance instDecidableCartUnique (cart : List Product) : Decidable (CartUnique cart) :=
  inferInstanceAs (Decidable ((cart.map Product.id).Nodup))

theorem cartUnique_updateFirst (cart : List Product) (pid a : Int)
    (hu : CartUnique cart) : CartUnique (updateFirst cart pid a) := by
  unfold CartUnique at *
  rw [updateFirst_map_id]
  exact hu

theorem cartUnique_eraseIdx (cart : List Product) (i : Nat)
    (hu : CartUnique cart) : CartUnique (cart.eraseIdx i) :=
  List.Nodup.sublist ((List.eraseIdx_sublist cart i).map Product.id) hu

theorem cartUnique_append_new (cart : List Product) (p : Product)
    (hnotin : p.id ∉ cart.map Product.id) (hu : CartUnique cart) :
    CartUnique (cart ++ [p]) := by
  unfold CartUnique at *
  rw [List.map_append]
  exact (List.perm_append_singleton _ _).nodup_iff.mpr
    (List.nodup_cons.mpr ⟨hnotin, hu⟩)

theorem addProductCore_unique (sa : Int → Except Unit Int)
    (pa : Int → Except Unit Product) (cart : List Product) (pid : Int)
    (hpa : ∀ p, pa pid = .ok p → p.id = pid) (hu : CartUnique cart) :
    CartUnique (UseCart.addProductCore sa pa cart pid).cart := by
  cases hsa : sa pid with
  | error e => simpa [UseCart.addProductCore, hsa] using hu
  | ok stockAmount =>
      cases hfind : cart.find? (fun product => product.id == pid) with
      | some p =>
          by_cases hlt : stockAmount < p.amount + 1
          · simpa [UseCart.addProductCore, hsa, hfind, hlt] using hu
          · simpa [UseCart.addProductCore, hsa, hfind, hlt] using
              cartUnique_updateFirst cart pid (p.amount + 1) hu
      | none =>
          cases hpa' : pa pid with
          | error e =>
              by_cases hlt : stockAmount < 1 <;>
                simpa [UseCart.addProductCore, hsa, hfind, hpa', hlt] using hu
          | ok product =>
              by_cases hlt : stockAmount < 1
              · simpa [UseCart.addProductCore, hsa, hfind, hpa', hlt] using hu
              · have hid : product.id = pid := hpa product hpa'
                have hnotin : product.id ∉ cart.map Product.id := by
                  rw [hid]
                  intro hmem
                  obtain ⟨q, hq, hqid⟩ := List.mem_map.mp hmem
                  exact (List.find?_eq_none.mp hfind q hq) (by simp [hqid])
                simpa [UseCart.addProductCore, hsa, hfind, hpa', hlt] using
                  cartUnique_append_new cart { product with amount := 1 } hnotin hu

theorem removeProductCore_unique (cart : List Product) (pid : Int)
    (hu : CartUnique cart) : CartUnique (UseCart.removeProductCore cart pid).cart := by
  cases hidx : cart.findIdx? (fun product => product.id == pid) with
  | none => simpa [UseCart.removeProductCore, hidx] using hu
  | some i =>
      simpa [UseCart.removeProductCore, hidx] using cartUnique_eraseIdx cart i hu

theorem updateProductAmountCore_unique (sa : Int → Except Unit Int)
    (cart : List Product) (pid amount : Int) (hu : CartUnique cart) :
    CartUnique (UseCart.updateProductAmountCore sa cart pid amount).cart := by
  by_cases h0 : amount ≤ 0
  · simpa [UseCart.updateProductAmountCore, h0] using hu
  · cases hsa : sa pid with
    | error e => simpa [UseCart.updateProductAmountCore, h0, hsa] using hu
    | ok stockAmount =>
        by_cases hlt : stockAmount < amount
        · simpa [UseCart.updateProductAmountCore, h0, hsa, hlt] using hu
        · cases hfind : cart.find? (fun product => product.id == pid) with
          | some p =>
              simpa [UseCart.updateProductAmountCore, h0, hsa, hlt, hfind] using
                cartUnique_updateFirst cart pid amount hu
          | none => simpa [UseCart.updateProductAmountCore, h0, hsa, hlt, hfind] using hu

theorem persistEffect_cart_cases (st : CartState) (o : UseCart.OpOutcome) :
    (UseCart.persistEffect st o).cart = o.cart ∨
      (UseCart.persistEffect st o).cart = st.cart := by
  unfold UseCart.persistEffect
  split <;> simp

/-- C7 as stated is false: the code appends `{...product.data, amount: 1}`
whose id is whatever the catalog responded with.  A catalog outcome whose
body carries an id already in the cart (for a request about a different id)
makes `addProduct` append a duplicate id.  Concretely: the cart holds id 1
only, `addProduct 2` is called, stock answers 5, the catalog responds with
a product whose id is 1 — the resulting cart has two entries with id 1. -/
theorem uniqueness_broken_by_adversarial_catalog :
    CartUnique [(⟨1, "a", 0, "", 1⟩ : Product)] ∧
      ¬ CartUnique ((UseCart.addProduct (fun _ => .ok 5)
        (fun _ => .ok ⟨1, "dup", 0, "", 7⟩)
        ⟨[⟨1, "a", 0, "", 1⟩], none⟩ 2).1.cart) := by
  constructor
  · decide
  · decide

/-- C7 (amended): for every cart list with at most one entry per product
id, the list produced by any of the three operations, in either variant,
under any collaborator outcome in which a successful catalog response for
the requested id carries that id, again has at most one entry per product
id. -/
theorem operations_preserve_uniqueness (sa : Int → Except Unit Int)
    (pa : Int → Except Unit Product) (st : CartState) (pid amount : Int)
    (hpa : ∀ p, pa pid = .ok p → p.id = pid)
    (hu : CartUnique st.cart) :
    CartUnique (UseCart.addProduct sa pa st pid).1.cart
    ∧ CartUnique (UseCart.removeProduct st pid).1.cart
    ∧ CartUnique (UseCart.updateProductAmount sa st pid amount).1.cart
    ∧ CartUnique (Part000.addProduct sa pa st pid).1.cart
    ∧ CartUnique (Part000.removeProduct st pid).1.cart
    ∧ CartUnique (Part000.updateProductAmount st pid amount).1.cart := by
  have hadd : CartUnique (UseCart.addProduct sa pa st pid).1.cart := by
    rcases persistEffect_cart_cases st (UseCart.addProductCore sa pa st.cart pid) with
      h | h
    · exact h ▸ addProductCore_unique sa pa st.cart pid hpa hu
    · exact h ▸ hu
  have hrem : CartUnique (UseCart.removeProduct st pid).1.cart := by
    rcases persistEffect_cart_cases st (UseCart.removeProductCore st.cart pid) with
      h | h
    · exact h ▸ removeProductCore_unique st.cart pid hu
    · exact h ▸ hu
  have hupd : CartUnique (UseCart.updateProductAmount sa st pid amount).1.cart := by
    rcases persistEffect_cart_cases st
      (UseCart.updateProductAmountCore sa st.cart pid amount) with h | h
    · exact h ▸ updateProductAmountCore_unique sa st.cart pid amount hu
    · exact h ▸ hu
  refine ⟨hadd, hrem, hupd, ?_, ?_, hu⟩
  · rw [← addProduct_variant_eq]; exact hadd
  · rw [← removeProduct_variant_eq]; exact hrem

theorem operations_preserve_uniqueness_witness :
    CartUnique ((UseCart.addProduct (fun _ => .ok 5)
      (fun i => .ok ⟨i, "p", 0, "", 1⟩) ⟨[⟨1, "a", 0, "", 1⟩], none⟩ 2).1.cart) :=
  (operations_preserve_uniqueness (fun _ => .ok 5) (fun i => .ok ⟨i, "p", 0, "", 1⟩)
    ⟨[⟨1, "a", 0, "", 1⟩], none⟩ 2 1
    (fun p h => by cases Except.ok.inj h; rfl) (by decide)).1

/-- C8: after every successful mutation — in either variant — the value
stored under the fixed key is exactly the JSON serialization of the new
canonical cart list; an operation that raises a toast, and the silent
no-op branch of `updateProductAmount` for amounts ≤ 0, perform no write
and leave both the canonical list and the stored snapshot unchanged. -/
theorem persistence_sync (sa : Int → Except Unit Int)
    (pa : Int → Except Unit Product) (st : CartState) (pid amount : Int) :
    (((UseCart.addProduct sa pa st pid).2 = none →
        (UseCart.addProduct sa pa st pid).1.storage =
          some (jsonStringify (UseCart.addProduct sa pa st pid).1.cart))
      ∧ ((UseCart.addProduct sa pa st pid).2 ≠ none →
        (UseCart.addProduct sa pa st pid).1 = st))
    ∧ (((UseCart.removeProduct st pid).2 = none →
        (UseCart.removeProduct st pid).1.storage =
          some (jsonStringify (UseCart.removeProduct st pid).1.cart))
      ∧ ((UseCart.removeProduct st pid).2 ≠ none →
        (UseCart.removeProduct st pid).1 = st))
    ∧ ((1 ≤ amount → (UseCart.updateProductAmount sa st pid amount).2 = none →
        (UseCart.updateProductAmount sa st pid amount).1.storage =
          some (jsonStringify (UseCart.updateProductAmount sa st pid amount).1.cart))
      ∧ ((UseCart.updateProductAmount sa st pid amount).2 ≠ none →
        (UseCart.updateProductAmount sa st pid amount).1 = st)
      ∧ (amount ≤ 0 → (UseCart.updateProductAmount sa st pid amount).1 = st))
    ∧ (((Part000.addProduct sa pa st pid).2 = none →
        (Part000.addProduct sa pa st pid).1.storage =
          some (jsonStringify (Part000.addProduct sa pa st pid).1.cart))
      ∧ ((Part000.addProduct sa pa st pid).2 ≠ none →
        (Part000.addProduct sa pa st pid).1 = st))
    ∧ (((Part000.removeProduct st pid).2 = none →
        (Part000.removeProduct st pid).1.storage =
          some (jsonStringify (Part000.removeProduct st pid).1.cart))
      ∧ ((Part000.removeProduct st pid).2 ≠ none →
        (Part000.removeProduct st pid).1 = st))
    ∧ (Part000.updateProductAmount st pid amount).1 = st := by
  have hadd := UseCart.persist_spec_of_dichotomy st _
    (UseCart.addProductCore_dichotomy sa pa st.cart pid)
  have hrem := UseCart.persist_spec_of_dichotomy st _
    (UseCart.removeProductCore_dichotomy st.cart pid)
  have hupd : (1 ≤ amount → (UseCart.updateProductAmount sa st pid amount).2 = none →
      (UseCart.updateProductAmount sa st pid amount).1.storage =
        some (jsonStringify (UseCart.updateProductAmount sa st pid amount).1.cart))
      ∧ ((UseCart.updateProductAmount sa st pid amount).2 ≠ none →
        (UseCart.updateProductAmount sa st pid amount).1 = st)
      ∧ (amount ≤ 0 → (UseCart.updateProductAmount sa st pid amount).1 = st) := by
    rcases UseCart.updateProductAmountCore_dichotomy sa st.cart pid amount with
      hd | ⟨h0, heq⟩
    · have hp := UseCart.persist_spec_of_dichotomy st _ hd
      refine ⟨fun _ => hp.1, hp.2, fun hle0 => ?_⟩
      simp [UseCart.updateProductAmount, UseCart.updateProductAmountCore,
        UseCart.persistEffect, hle0]
    · refine ⟨fun hge _ => absurd hge (by omega), fun hne => ?_, fun _ => ?_⟩
      · exact absurd (by simp [UseCart.updateProductAmount, heq]) hne
      · simp [UseCart.updateProductAmount, UseCart.persistEffect, heq]
  refine ⟨hadd, hrem, hupd, ?_, ?_, rfl⟩
  · rw [← addProduct_variant_eq]; exact hadd
  · rw [← removeProduct_variant_eq]; exact hrem

theorem persistence_sync_witness :
    (UseCart.addProduct (fun _ => .ok 5) (fun _ => .error ())
        ⟨[⟨1, "t", 2, "i", 2⟩], none⟩ 1).1.storage =
      some (jsonStringify (UseCart.addProduct (fun _ => .ok 5) (fun _ => .error ())
        ⟨[⟨1, "t", 2, "i", 2⟩], none⟩ 1).1.cart) :=
  ((persistence_sync (fun _ => .ok 5) (fun _ => .error ())
    ⟨[⟨1, "t", 2, "i", 2⟩], none⟩ 1 1).1).1 (by decide)

/-- C9: the `addProduct` and `removeProduct` of the duplicated variant
(`src/unnamed/part_000`) are behaviorally equivalent to those of the
fuller variant (`src/src/hooks/useCart.tsx`): for every starting state,
product id, and collaborator outcome they produce the same resulting
cart list, the same stored snapshot, and the same toast. -/
theorem variants_behaviorally_equivalent (sa : Int → Except Unit Int)
    (pa : Int → Except Unit Product) (st : CartState) (pid : Int) :
    UseCart.addProduct sa pa st pid = Part000.addProduct sa pa st pid
    ∧ UseCart.removeProduct st pid = Part000.removeProduct st pid :=
  ⟨addProduct_variant_eq sa pa st pid, removeProduct_variant_eq st pid⟩
